import Mathlib

/-!
Verification of the request-throttling and pagination core of an openFDA
HTTP client (`openfda_client.py` plus the validation helpers of `models.py`).

Shallow embedding conventions:
* Python `Optional[int]` fields are `Option ℤ`; Python `Optional[str]` are
  `Option String`.  A key that is absent from the built parameter dict is a
  field holding `none` in the `Params` structure.
* Python string truthiness (`if query.search:`) is `none`-or-empty-string
  falsity, embedded by `optField` / `truthyS`.
* `str.replace(' ', '+')` with a one-character pattern maps each space
  character to `+` and nothing else, embedded as a character map
  (`pSearch`); `str.replace(' ', '')` deletes exactly the space characters,
  embedded as a character filter (`pStrip`).
* The token-bucket limiter stores a float token count; it is embedded over
  `ℚ`.  `time.time()` values are arbitrary rationals supplied per call
  (one timestamp for the refill, one for the post-sleep reading).
* The transport (`requests` session) is an oracle `Service`: per attempted
  request it yields either a distinguishable error (network error or non-2xx
  HTTP status, both of which `api_search` re-raises) or a page: a record
  count (`Record` contents are opaque to the core, so a page is represented
  by how many records it holds), the `meta.results.total` value (the code
  defaults a missing total to 0, which the oracle realises by returning 0),
  and the continuation state of the `Link` header (`no rel="next"` entry /
  present but unparsable / parsed next-URL query parameters, which the
  client treats as an opaque token).
* The two unbounded `while` loops of `api_search` are embedded with an
  explicit fuel argument; `apiSearch` allocates a fuel that is proved
  sufficient (`apiSearch` never returns `Outcome.outOfFuel`), so the
  embedding is total exactly where the source terminates.
* Each performed page request is preceded by one `minute_limiter.acquire()`
  and one `day_limiter.acquire()` (never-failing, blocking only); the run
  trace records one `Call` per attempted request, so an empty trace means
  no fetch and no limiter acquisition happened.
-/

/-! ### String helpers (wire encodings of `_build_params`) -/

/-- Python `s.replace(' ', '+')`: every space character becomes `+`. -/
def pSearch (s : String) : String :=
  String.mk (s.data.map (fun c => if c = ' ' then '+' else c))

/-- Python `s.replace(' ', '')`: every space character is removed. -/
def pStrip (s : String) : String :=
  String.mk (s.data.filter (fun c => ¬ (c = ' ')))

/-- Python truthiness of an optional string: `None` and `""` are falsy. -/
def truthyS : Option String → Bool
  | none => false
  | some s => !s.isEmpty

/-! ### The query object (`BaseQuery` fields read by the core) -/

/-- The five `BaseQuery` fields the client reads, plus the endpoint path.
Dataclass defaults: `limit = 1000`, everything else `None`. -/
structure Query where
  endpointPath : String := ""
  search : Option String := none
  sort : Option String := none
  count : Option String := none
  limit : Option ℤ := some 1000
  skip : Option ℤ := none
deriving DecidableEq

/-- Python `if not query.sort:` reads the sort field's truthiness. -/
def Query.sortTruthy (q : Query) : Bool := truthyS q.sort

/-! ### Constructor validation (`validate_limit`, `validate_skip`,
`validate_sort` in `models.py`) -/

/-- `validate_limit`: rejects `limit < -1` and `limit == 0`. -/
def validLimitB : Option ℤ → Bool
  | none => true
  | some l => !(l < -1 : Bool) && !(l = 0 : Bool)

/-- `validate_skip`: rejects `skip < 0` and `skip > 25000`. -/
def validSkipB : Option ℤ → Bool
  | none => true
  | some s => !(s < 0 : Bool) && !(25000 < s : Bool)

def ascStr : String := "asc"

def descStr : String := "desc"

def emptyS : String := ""

/-- Python `str.split` with a one-character separator, over the character
list: `"a:b:c".split(':') == ['a','b','c']`, and a leading/trailing/double
separator yields empty segments exactly as in Python. -/
def splitChar (sep : Char) : List Char → List (List Char)
  | [] => [[]]
  | c :: cs =>
    match splitChar sep cs with
    | [] => [[c]]
    | g :: gs => if c = sep then [] :: g :: gs else (c :: g) :: gs

/-- `validate_sort`: when the sort string contains a colon, the part after
the first colon must be `asc` or `desc`. -/
def validSortB : Option String → Bool
  | none => true
  | some s =>
    if s.data.contains ':' then
      let o := String.mk ((splitChar ':' s.data).getD 1 [])
      o == ascStr || o == descStr
    else true

/-- A query the `BaseQuery.__post_init__` validation accepts. -/
def validQ (q : Query) : Bool :=
  validLimitB q.limit && validSkipB q.skip && validSortB q.sort

/-! ### `_build_params` -/

/-- The parameter dict built by `_build_params`; a `none` field is an
absent key. -/
structure Params where
  search : Option String := none
  sort : Option String := none
  count : Option String := none
  limit : Option ℤ := none
  skip : Option ℤ := none
deriving DecidableEq

/-- Python `if query.x: params[k] = f(query.x)` for a string field. -/
def optField (f : String → String) : Option String → Option String
  | none => none
  | some s => if s.isEmpty then none else some (f s)

/-- Python `override if override is not None else query.value`. -/
def effOpt (ov qv : Option ℤ) : Option ℤ :=
  match ov with
  | some v => some v
  | none => qv

/-- Include `limit` only when present and different from the service
default 1000. -/
def limitField : Option ℤ → Option ℤ
  | none => none
  | some v => if v = 1000 then none else some v

/-- Include `skip` only when present and strictly positive. -/
def skipField : Option ℤ → Option ℤ
  | none => none
  | some v => if 0 < v then some v else none

/-- `FDAClient._build_params(query, limit, skip)`. -/
def buildParams (q : Query) (limit skip : Option ℤ) : Params :=
  { search := optField pSearch q.search
    sort := optField pStrip q.sort
    count := optField pSearch q.count
    limit := limitField (effOpt limit q.limit)
    skip := skipField (effOpt skip q.skip) }

/-! ### Token bucket rate limiter (`RateLimiter`) -/

/-- The mutable state of `RateLimiter`: the stored token count and the
`last_update` timestamp. -/
structure RLState where
  tokens : ℚ
  lastUpdate : ℚ
deriving DecidableEq

/-- `RateLimiter.__init__`: starts with a full bucket. -/
def rlInit (maxReq : ℕ) (t0 : ℚ) : RLState := ⟨(maxReq : ℚ), t0⟩

/-- One `RateLimiter.acquire()` call.  `now` is the `time.time()` read at
entry; `afterSleep` is the `time.time()` read after the sleep in the
no-token branch (the sleep changes no token arithmetic beyond the source's
`tokens = 1`). -/
def rlAcquire (maxReq : ℕ) (window : ℚ) (s : RLState) (now afterSleep : ℚ) :
    RLState :=
  let s1 : RLState :=
    ⟨min (maxReq : ℚ) (s.tokens + (now - s.lastUpdate) * (maxReq : ℚ) / window),
      now⟩
  let s2 : RLState := if s1.tokens < 1 then ⟨1, afterSleep⟩ else s1
  ⟨s2.tokens - 1, s2.lastUpdate⟩

/-- States observed after each `acquire()` of a call sequence (each call
carries its pair of clock readings). -/
def rlStates (maxReq : ℕ) (window : ℚ) (s : RLState) :
    List (ℚ × ℚ) → List RLState
  | [] => []
  | c :: cs =>
    let s2 := rlAcquire maxReq window s c.1 c.2
    s2 :: rlStates maxReq window s2 cs

/-- After any single `acquire()` the stored token count is in
`[0, maxReq]`, whatever the incoming state and clock readings were. -/
theorem rlAcquire_bounds (maxReq : ℕ) (window : ℚ) (s : RLState)
    (now afterSleep : ℚ) (hcap : 1 ≤ maxReq) :
    0 ≤ (rlAcquire maxReq window s now afterSleep).tokens ∧
      (rlAcquire maxReq window s now afterSleep).tokens ≤ (maxReq : ℚ) := by
  unfold rlAcquire
  dsimp only
  set r : ℚ := min (maxReq : ℚ) (s.tokens + (now - s.lastUpdate) * (maxReq : ℚ) / window) with hr
  have hrle : r ≤ (maxReq : ℚ) := by
    rw [hr]; exact min_le_left _ _
  have hcap1 : (1 : ℚ) ≤ (maxReq : ℚ) := by exact_mod_cast hcap
  by_cases h : r < 1
  · rw [if_pos h]
    refine ⟨by norm_num, ?_⟩
    show (1 : ℚ) - 1 ≤ (maxReq : ℚ)
    linarith
  · rw [if_neg h]
    push_neg at h
    refine ⟨?_, ?_⟩
    · show 0 ≤ r - 1
      linarith
    · show r - 1 ≤ (maxReq : ℚ)
      linarith

/-- C2: for every limiter configuration with positive capacity and window,
and every sequence of `acquire()` calls at arbitrary clock readings, the
stored token count lies in `[0, capacity]` after each call returns. -/
theorem rateLimiter_tokens_in_range (maxReq : ℕ) (window t0 : ℚ)
    (calls : List (ℚ × ℚ)) (hcap : 0 < maxReq) (_hwin : 0 < window) :
    ∀ s ∈ rlStates maxReq window (rlInit maxReq t0) calls,
      0 ≤ s.tokens ∧ s.tokens ≤ (maxReq : ℚ) := by
  clear _hwin
  generalize rlInit maxReq t0 = s0
  induction calls generalizing s0 with
  | nil => intro s hs; simp [rlStates] at hs
  | cons c cs ih =>
    intro s hs
    simp only [rlStates, List.mem_cons] at hs
    rcases hs with h | h
    · subst h; exact rlAcquire_bounds maxReq window s0 c.1 c.2 hcap
    · exact ih _ s h

theorem rateLimiter_tokens_in_range_witness :
    0 ≤ (rlAcquire 2 60 (rlInit 2 0) 0 0).tokens ∧
      (rlAcquire 2 60 (rlInit 2 0) 0 0).tokens ≤ (2 : ℚ) :=
  rateLimiter_tokens_in_range 2 60 0 [(0, 0)] (by norm_num) (by norm_num) _
    (by simp [rlStates])

/-- A query with a positive stored `skip`, as a caller may construct
(`validate_skip` accepts every skip in `[0, 25000]`). -/
def qC1 : Query := { skip := some 20000 }

/-- C1 (code-bug evidence): calling `_build_params` with an explicit
`skip=None` override does NOT omit the `skip` key when `query.skip` is
positive — the source's `skip if skip is not None else query.skip` falls
back to the query value, so the first cursor-mode request of `api_search`
(line 348, built with `skip=None` under the comment "no skip parameter")
would still carry `skip=20000`. -/
theorem buildParams_skipNone_falls_back_to_query :
    validQ qC1 = true ∧
      (buildParams qC1 (some 1000) none).skip = some 20000 := by
  decide

/-- A sort string containing a tab; `validate_sort` accepts it because the
text after the colon is `asc`. -/
def tabSortS : String := String.mk ['a', '\t', 'b', ':', 'a', 's', 'c']

def qC7 : Query := { sort := some tabSortS }

/-- C7 counterexample: the built `sort` value can still contain a
whitespace character (a tab), because `sort.replace(' ', '')` removes only
space characters; the claim "contains no whitespace character of any kind"
fails on this valid query. -/
theorem buildParams_sort_whitespace_cex :
    validQ qC7 = true ∧ qC7.sortTruthy = true ∧
      ((buildParams qC7 none none).sort.getD emptyS).data.any
        Char.isWhitespace = true := by
  decide

/-- C7 (amended): for every query whose sort field is present (truthy),
the built parameter map sends `sort` to the sort string with every space
character `' '` removed; characters other than `' '` (including other
whitespace such as tabs) are kept. -/
theorem buildParams_sort_strips_spaces (q : Query) (l s : Option ℤ)
    (str : String) (hs : q.sort = some str) (hne : str.isEmpty = false) :
    (buildParams q l s).sort = some (pStrip str) ∧
      ∀ c ∈ (pStrip str).data, ¬ (c = ' ') := by
  constructor
  · simp [buildParams, optField, hs, hne]
  · intro c hc
    simp only [pStrip, List.mem_filter, decide_not] at hc
    exact of_decide_eq_true (Bool.not_not_eq.mp (by simpa using hc.2))

/-- A sort string containing a space. -/
def spaceSortS : String := String.mk ['a', ' ', 'b']

def qC7b : Query := { sort := some spaceSortS }

theorem buildParams_sort_strips_spaces_witness :
    (buildParams qC7b none none).sort = some (pStrip spaceSortS) :=
  (buildParams_sort_strips_spaces qC7b none none spaceSortS rfl rfl).1

/-! ### Transport oracle and run bookkeeping for `api_search` -/

/-- A request the client sends: either parameters built by `_build_params`
(`std`), or the parameter map parsed verbatim from a `Link: <URL>;
rel="next"` header, which the client relays without interpreting — an
opaque continuation token (`cont`). -/
inductive Req where
  | std (p : Params)
  | cont (tok : ℕ)
deriving DecidableEq

/-- The errors `api_search` re-raises: a non-2xx HTTP status
(`requests.exceptions.HTTPError`) or a network-level failure
(`requests.exceptions.RequestException`). -/
inductive FetchError where
  | http
  | network
deriving DecidableEq

/-- Continuation information taken from the response's `Link` header:
no `rel="next"` entry, an entry the regex cannot parse, or a parsed
next-URL whose query string the client will send back verbatim. -/
inductive Link where
  | noNext
  | unparsable
  | next (tok : ℕ)
deriving DecidableEq

/-- One page response: how many records `data['results']` holds (their
contents are opaque to the core), the `meta.results.total` value (0 when
missing), and the `Link` continuation state. -/
structure Resp where
  nres : ℕ
  total : ℤ
  link : Link
deriving DecidableEq

/-- The transport collaborator: the `i`-th attempted request (0-based)
receives a response or fails.  Indexing by the call number lets the oracle
express any stateful remote service. -/
def Service := ℕ → Req → Except FetchError Resp

/-- Which program point issued a request: the offset-mode loop, the first
cursor-mode request (built by `_build_params` with `skip=None`), or a
continuation request replayed from a parsed `Link` header. -/
inductive CallMode where
  | offset
  | cursorInit
  | cursorCont
deriving DecidableEq

deriving instance DecidableEq for Except

/-- Trace entry for one attempted page request: the issuing program point,
the internally computed batch size passed as the `limit` override (`none`
for continuation requests, which reuse the service-supplied parameters),
and the result (number of records received, or the error raised). -/
structure Call where
  mode : CallMode
  batch : Option ℤ
  result : Except FetchError ℕ
deriving DecidableEq

/-- The `remaining` counter: `float('inf')` in unlimited mode, else an
integer. -/
inductive Rem where
  | inf
  | fin (n : ℤ)
deriving DecidableEq

/-- Python `remaining > 0` (`inf > 0` is true). -/
def Rem.IsPos : Rem → Prop
  | .inf => True
  | .fin n => 0 < n

instance (r : Rem) : Decidable r.IsPos :=
  match r with
  | .inf => .isTrue trivial
  | .fin n => inferInstanceAs (Decidable (0 < n))

/-- Python `min(remaining, c)` for finite `c` (`min(inf, c) = c`). -/
def Rem.minCap (r : Rem) (c : ℤ) : ℤ :=
  match r with
  | .inf => c
  | .fin n => min n c

/-- Python `remaining -= n` (`inf - n = inf`). -/
def Rem.sub (r : Rem) (n : ℤ) : Rem :=
  match r with
  | .inf => .inf
  | .fin m => .fin (m - n)

/-- The local pagination state of the offset-mode loop: `len(all_results)`
(records are opaque, so their aggregate is its length), `current_skip`,
`remaining`, and `total_available` (`none` until a response sets it). -/
structure P1State where
  count : ℕ
  skip : ℤ
  remaining : Rem
  total : Option ℤ
deriving DecidableEq

/-- Why the offset-mode loop stopped: the three `break` conditions of the
loop body (`emptyBatch`, `partialBatch`, `gotAll`), the `break` on an
exhausted dataset bound (`datasetExhausted`), or the loop condition going
false on `remaining` (`condRemaining`) or on `current_skip` reaching 25000
(`condSkip`). -/
inductive P1Exit where
  | emptyBatch
  | partialBatch
  | gotAll
  | datasetExhausted
  | condRemaining
  | condSkip
deriving DecidableEq

/-- Result of the offset-mode loop: the final state with the stop cause
and the trace of attempted requests, an error raised by a fetch, or fuel
exhaustion (proved unreachable for the fuel `apiSearch` allocates). -/
inductive P1Out where
  | out (st : P1State) (exit : P1Exit) (tr : List Call)
  | err (e : FetchError) (tr : List Call)
  | fuel
deriving DecidableEq

/-- Phase 1 of `api_search` (lines 285-337): the `while remaining > 0 and
current_skip < 25000` offset-mode loop.  `idx` numbers the attempted
requests from the start of the run.  The `batch_size <= 0` break is only
reachable when `total_available` is known, exactly as in the source (when
it is unknown the batch is `min(remaining, 1000) ≥ 1` under the loop
condition). -/
def phase1 (svc : Service) (q : Query) (userSkip : ℤ) :
    ℕ → ℕ → P1State → P1Out
  | 0, _, _ => .fuel
  | fuel + 1, idx, st =>
    if st.remaining.IsPos then
      if st.skip < 25000 then
        let b0 := st.remaining.minCap 1000
        let b := match st.total with
          | none => b0
          | some t => min b0 (t - (st.skip - userSkip))
        if b ≤ 0 then .out st .datasetExhausted []
        else
          let params := buildParams q (some b) (some st.skip)
          match svc idx (.std params) with
          | .error e => .err e [⟨.offset, some b, .error e⟩]
          | .ok resp =>
            let call : Call := ⟨.offset, some b, .ok resp.nres⟩
            let st1 : P1State := { st with total := some resp.total }
            if resp.nres = 0 then .out st1 .emptyBatch [call]
            else
              let st2 : P1State := { st1 with count := st1.count + resp.nres }
              if (resp.nres : ℤ) < b then .out st2 .partialBatch [call]
              else if (st2.count : ℤ) ≥ resp.total then .out st2 .gotAll [call]
              else
                match phase1 svc q userSkip fuel (idx + 1)
                    { st2 with
                      remaining := st2.remaining.sub (resp.nres : ℤ)
                      skip := st2.skip + (resp.nres : ℤ) } with
                | .out s e tr => .out s e (call :: tr)
                | .err e tr => .err e (call :: tr)
                | .fuel => .fuel
      else .out st .condSkip []
    else .out st .condRemaining []

/-- Why the cursor-mode loop stopped: empty page, all available records
accumulated, no `rel="next"` link, unparsable link, or the loop condition
`remaining > 0` going false. -/
inductive P2Exit where
  | emptyBatch
  | gotAll
  | noLink
  | badLink
  | condRemaining
deriving DecidableEq

/-- Result of the cursor-mode loop: final record count, stop cause and
request trace; or a raised fetch error; or fuel exhaustion. -/
inductive P2Out where
  | out (count : ℕ) (exit : P2Exit) (tr : List Call)
  | err (e : FetchError) (tr : List Call)
  | fuel
deriving DecidableEq

/-- Phase 2 of `api_search` (lines 350-397): the `while remaining > 0`
search_after loop.  `cur` is the request to send (initially the
`_build_params` output, afterwards the parameters parsed from the `Link`
header); `total` is `total_available`, which phase 2 never updates. -/
def phase2 (svc : Service) (total : ℤ) :
    ℕ → ℕ → Req → CallMode → Option ℤ → ℕ → Rem → P2Out
  | 0, _, _, _, _, _, _ => .fuel
  | fuel + 1, idx, cur, mode, binfo, count, remaining =>
    if remaining.IsPos then
      match svc idx cur with
      | .error e => .err e [⟨mode, binfo, .error e⟩]
      | .ok resp =>
        let call : Call := ⟨mode, binfo, .ok resp.nres⟩
        if resp.nres = 0 then .out count .emptyBatch [call]
        else
          let count2 := count + resp.nres
          let rem2 := remaining.sub (resp.nres : ℤ)
          if (count2 : ℤ) ≥ total then .out count2 .gotAll [call]
          else
            match resp.link with
            | .noNext => .out count2 .noLink [call]
            | .unparsable => .out count2 .badLink [call]
            | .next tok =>
              match phase2 svc total fuel (idx + 1) (.cont tok) .cursorCont
                  none count2 rem2 with
              | .out c e tr => .out c e (call :: tr)
              | .err e tr => .err e (call :: tr)
              | .fuel => .fuel
    else .out count .condRemaining []

/-- The cause recorded for the end of a whole `api_search` run. -/
inductive StopReason where
  | p1EmptyBatch
  | p1PartialBatch
  | p1GotAll
  | p1DatasetExhausted
  | p1RemainingDone
  | p1SkipCap
  | noSortDegradation
  | p2EmptyBatch
  | p2GotAll
  | p2NoLink
  | p2BadLink
  | p2RemainingDone
deriving DecidableEq

def p1Reason : P1Exit → StopReason
  | .emptyBatch => .p1EmptyBatch
  | .partialBatch => .p1PartialBatch
  | .gotAll => .p1GotAll
  | .datasetExhausted => .p1DatasetExhausted
  | .condRemaining => .p1RemainingDone
  | .condSkip => .p1SkipCap

def p2Reason : P2Exit → StopReason
  | .emptyBatch => .p2EmptyBatch
  | .gotAll => .p2GotAll
  | .noLink => .p2NoLink
  | .badLink => .p2BadLink
  | .condRemaining => .p2RemainingDone

/-- Observable outcome of one `api_search` run.  `ok` returns the
`QueryResult` data (`total_results`, number of accumulated records)
together with the stop cause, the `current_skip` at which the engine
logged "Switching to search_after mode" (`none` when that line never ran —
the switch point exists at most once per run by control flow), and the
request trace.  `fetchError` is a re-raised transport/HTTP error (the
records accumulated before it are discarded — the constructor carries
none).  `typeError` is the unhandled `len(all_results) < None` comparison.
`outOfFuel` is an artifact of the fuel embedding, proved unreachable. -/
inductive Outcome where
  | ok (total : ℤ) (records : ℕ) (reason : StopReason)
      (switchSkip : Option ℤ) (tr : List Call)
  | fetchError (e : FetchError) (tr : List Call)
  | typeError (tr : List Call)
  | outOfFuel
deriving DecidableEq

/-- `user_skip = query.skip or 0` (`None` and `0` are falsy, both give 0). -/
def userSkip (q : Query) : ℤ := q.skip.getD 0

/-- `user_limit = query.limit or 1000` (`None` and `0` give 1000). -/
def userLimit (q : Query) : ℤ :=
  match q.limit with
  | none => 1000
  | some l => if l = 0 then 1000 else l

/-- `remaining` after the unlimited-mode check (`user_limit == -1` becomes
`float('inf')`). -/
def remaining0 (q : Query) : Rem :=
  if userLimit q = -1 then .inf else .fin (userLimit q)

/-- Aggregation state at the top of `api_search`: no records,
`current_skip = user_skip`, `total_available = None`. -/
def initState (q : Query) : P1State := ⟨0, userSkip q, remaining0 q, none⟩

/-- Fuel sufficient for the offset-mode loop (one unit per iteration; the
skip strictly grows per iteration and is capped at 25000). -/
def fuel1 (q : Query) : ℕ := (25000 - userSkip q).toNat + 1

/-- Everything `api_search` does after the offset-mode loop returns.  The
phase-2 guard `remaining > 0 and current_skip >= 25000 and
len(all_results) < total_available` is evaluated with Python's
short-circuit order; comparing against a still-`None` `total_available`
raises `TypeError`.  Without a truthy sort the engine logs a warning and
returns the accumulated records; otherwise it runs the cursor-mode loop
with fuel one more than the outstanding record count (each iteration that
continues strictly increases the accumulated count, which stays below
`total_available`). -/
def afterPhase1 (svc : Service) (q : Query) : P1Out → Outcome
  | .fuel => .outOfFuel
  | .err e tr => .fetchError e tr
  | .out st exit tr1 =>
    if st.remaining.IsPos then
      if 25000 ≤ st.skip then
        match st.total with
        | none => .typeError tr1
        | some t =>
          if (st.count : ℤ) < t then
            if q.sortTruthy then
              let b := st.remaining.minCap 1000
              let params := buildParams q (some b) none
              match phase2 svc t ((t - (st.count : ℤ)).toNat + 1) tr1.length
                  (.std params) .cursorInit (some b) st.count st.remaining with
              | .fuel => .outOfFuel
              | .err e tr2 => .fetchError e (tr1 ++ tr2)
              | .out c2 exit2 tr2 =>
                .ok t c2 (p2Reason exit2) (some st.skip) (tr1 ++ tr2)
            else .ok t st.count .noSortDegradation (some st.skip) tr1
          else .ok (st.total.getD 0) st.count (p1Reason exit) none tr1
      else .ok (st.total.getD 0) st.count (p1Reason exit) none tr1
    else .ok (st.total.getD 0) st.count (p1Reason exit) none tr1

/-- `FDAClient.api_search(query)` against the transport oracle `svc`: the
offset-mode loop from the initial aggregation state, then the phase-2
guard and (when enabled) the cursor-mode loop. -/
def apiSearch (svc : Service) (q : Query) : Outcome :=
  afterPhase1 svc q (phase1 svc q (userSkip q) (fuel1 q) 0 (initState q))

/-! ### Concrete scenario services used by claim instances -/

/-- Offset-page response of a dataset with `tot` matching records that
serves every requested batch in full: an absent `skip` key is offset 0 and
an absent `limit` key is the server default 1000, so the page holds
`min(limit, tot - skip)` records; every page reports `total = tot`. -/
def servePage (tot : ℤ) (skip lim : Option ℤ) : Resp :=
  ⟨(min (lim.getD 1000) (tot - skip.getD 0)).toNat, tot, .noNext⟩

/-- The claim-C5 scenario service: `totalAvailable = 1500`, every
requested batch served in full from the requested offset. -/
def c5svc : Service := fun _ req =>
  .ok (match req with
    | .std p => servePage 1500 p.skip p.limit
    | .cont _ => ⟨0, 1500, .noNext⟩)

/-- The claim-C3 scenario service: `totalAvailable = 30000`, every
requested batch served in full, and a `rel="next"` link while records
remain.  A `std` request with a `skip` key is an offset page.  A `std`
request without a `skip` key serves a full batch: as the run's very first
request it is the page at offset 0, and as the first cursor-mode request
it continues the dataset beyond the 25000 offset-served records; either
way it carries a parsable next-link whose token counts the records still
unserved in the cursor chain (5000 beyond the offset ceiling). -/
def c3Std (skip lim : Option ℤ) : Resp :=
  match skip with
  | some sk => ⟨(min (lim.getD 1000) (30000 - sk)).toNat, 30000, .noNext⟩
  | none =>
    let n := (lim.getD 1000).toNat
    ⟨n, 30000, .next (5000 - n)⟩

/-- Continuation page of the claim-C3 service: the token is the number of
records still unserved in the cursor chain; a full batch of up to 1000 is
served and a next-link supplied while records remain. -/
def c3Cont (tok : ℕ) : Resp :=
  let n := min 1000 tok
  ⟨n, 30000, if tok - n = 0 then .noNext else .next (tok - n)⟩

def c3svc : Service := fun _ req =>
  .ok (match req with
    | .std p => c3Std p.skip p.limit
    | .cont tok => c3Cont tok)

/-- A service whose request number 1 (the second request) always fails
with a network error; request 0 behaves like the C5 scenario service. -/
def c6svc : Service := fun i req =>
  if i = 0 then c5svc 0 req else .error .network

/-! ### Unfolding and projection helpers -/

theorem buildParams_limitP (q : Query) (l s : Option ℤ) :
    (buildParams q l s).limit = limitField (effOpt l q.limit) := rfl

theorem buildParams_skipP (q : Query) (l s : Option ℤ) :
    (buildParams q l s).skip = skipField (effOpt s q.skip) := rfl

theorem phase1_succ (svc : Service) (q : Query) (userSkip : ℤ)
    (fuel idx : ℕ) (st : P1State) :
    phase1 svc q userSkip (fuel + 1) idx st =
      (if st.remaining.IsPos then
        if st.skip < 25000 then
          let b0 := st.remaining.minCap 1000
          let b := match st.total with
            | none => b0
            | some t => min b0 (t - (st.skip - userSkip))
          if b ≤ 0 then .out st .datasetExhausted []
          else
            let params := buildParams q (some b) (some st.skip)
            match svc idx (.std params) with
            | .error e => .err e [⟨.offset, some b, .error e⟩]
            | .ok resp =>
              let call : Call := ⟨.offset, some b, .ok resp.nres⟩
              let st1 : P1State := { st with total := some resp.total }
              if resp.nres = 0 then .out st1 .emptyBatch [call]
              else
                let st2 : P1State := { st1 with count := st1.count + resp.nres }
                if (resp.nres : ℤ) < b then .out st2 .partialBatch [call]
                else if (st2.count : ℤ) ≥ resp.total then .out st2 .gotAll [call]
                else
                  match phase1 svc q userSkip fuel (idx + 1)
                      { st2 with
                        remaining := st2.remaining.sub (resp.nres : ℤ)
                        skip := st2.skip + (resp.nres : ℤ) } with
                  | .out s e tr => .out s e (call :: tr)
                  | .err e tr => .err e (call :: tr)
                  | .fuel => .fuel
        else .out st .condSkip []
      else .out st .condRemaining []) := rfl

theorem phase2_succ (svc : Service) (total : ℤ) (fuel idx : ℕ) (cur : Req)
    (mode : CallMode) (binfo : Option ℤ) (count : ℕ) (remaining : Rem) :
    phase2 svc total (fuel + 1) idx cur mode binfo count remaining =
      (if remaining.IsPos then
        match svc idx cur with
        | .error e => .err e [⟨mode, binfo, .error e⟩]
        | .ok resp =>
          let call : Call := ⟨mode, binfo, .ok resp.nres⟩
          if resp.nres = 0 then .out count .emptyBatch [call]
          else
            let count2 := count + resp.nres
            let rem2 := remaining.sub (resp.nres : ℤ)
            if (count2 : ℤ) ≥ total then .out count2 .gotAll [call]
            else
              match resp.link with
              | .noNext => .out count2 .noLink [call]
              | .unparsable => .out count2 .badLink [call]
              | .next tok =>
                match phase2 svc total fuel (idx + 1) (.cont tok) .cursorCont
                    none count2 rem2 with
                | .out c e tr => .out c e (call :: tr)
                | .err e tr => .err e (call :: tr)
                | .fuel => .fuel
      else .out count .condRemaining []) := rfl

/-! ### Claim C10: skip = 25000 reaches the ill-typed guard comparison -/

/-- C10: for every service and every query with stored skip exactly 25000
(which `validate_skip` accepts) and any limit `validate_limit` accepts,
`api_search` raises the unhandled `TypeError` from evaluating
`len(all_results) < None`, before any fetch or limiter acquisition (the
trace is empty, and every limiter acquisition precedes a fetch). -/
theorem apiSearch_skip25000_raises (svc : Service) (q : Query)
    (hskip : q.skip = some 25000) (hlim : validLimitB q.limit = true) :
    validSkipB q.skip = true ∧ apiSearch svc q = .typeError [] := by
  have hus : userSkip q = 25000 := by simp [userSkip, hskip]
  have hpos : (remaining0 q).IsPos := by
    unfold remaining0 userLimit
    rcases hq : q.limit with _ | l
    · norm_num [Rem.IsPos]
    · rw [hq] at hlim
      dsimp only
      simp only [validLimitB, Bool.and_eq_true, Bool.not_eq_true',
        decide_eq_false_iff_not] at hlim
      obtain ⟨h1, h2⟩ := hlim
      by_cases h0 : l = 0
      · exact absurd h0 h2
      · rw [if_neg h0]
        by_cases hm : l = -1
        · rw [hm]; norm_num [Rem.IsPos]
        · rw [if_neg hm]
          simp only [Rem.IsPos]
          omega
  have hinit : initState q = ⟨0, 25000, remaining0 q, none⟩ := by
    rw [initState, hus]
  have hfuel : fuel1 q = 0 + 1 := by
    rw [fuel1, hus]; rfl
  refine ⟨by rw [hskip]; decide, ?_⟩
  have hph : phase1 svc q (userSkip q) (fuel1 q) 0 (initState q) =
      .out ⟨0, 25000, remaining0 q, none⟩ .condSkip [] := by
    rw [hfuel, hinit, phase1_succ]
    rw [if_pos (show (remaining0 q).IsPos from hpos)]
    rw [if_neg (show ¬ ((25000 : ℤ) < 25000) from by omega)]
  unfold apiSearch
  rw [hph]
  simp only [afterPhase1]
  rw [if_pos hpos]
  rw [if_pos (show (25000 : ℤ) ≤ 25000 from le_refl _)]

/-! ### Claim C4: missing sort degrades gracefully at the offset ceiling -/

/-- C4: whenever the offset loop hands over a state that satisfies the
phase-2 guard (requested records remain, `current_skip ≥ 25000`, fewer
records accumulated than `total_available`) and the query has no truthy
sort field, `api_search` does not raise: it records the degradation
(`noSortDegradation`, the logged warning) and returns exactly the records
the offset loop accumulated, performing no further fetch (the trace is the
offset loop's trace unchanged). -/
theorem apiSearch_noSort_degrades (svc : Service) (q : Query)
    (st : P1State) (ex : P1Exit) (tr : List Call) (t : ℤ)
    (hsort : q.sortTruthy = false)
    (hph : phase1 svc q (userSkip q) (fuel1 q) 0 (initState q) = .out st ex tr)
    (hpos : st.remaining.IsPos) (hge : 25000 ≤ st.skip)
    (htot : st.total = some t) (hlt : (st.count : ℤ) < t) :
    apiSearch svc q = .ok t st.count .noSortDegradation (some st.skip) tr := by
  unfold apiSearch
  rw [hph]
  simp only [afterPhase1]
  rw [if_pos hpos, if_pos hge, htot]
  dsimp only
  rw [if_pos hlt, hsort]
  simp

/-! ### Claim C9: the caller's query object is never mutated -/

/-- The `QueryResult` dataclass: the query object placed in the result,
the reported total, and the accumulated records (as a count; record
contents are opaque to the core). -/
structure QueryResultM where
  query : Query
  totalResults : ℤ
  records : ℕ
deriving DecidableEq

/-- `QueryResult(query=query, total_results=..., records=...)` as built at
line 399 of the source on the non-raising paths. -/
def apiSearchResult (svc : Service) (q : Query) : Option QueryResultM :=
  match apiSearch svc q with
  | .ok t r _ _ _ => some ⟨q, t, r⟩
  | _ => none

/-- C9: the query inside the returned `QueryResult` is the caller's query,
unchanged.  The embedding is faithful here because `_build_params` and
`api_search` contain no assignment to any query field: all pagination
state lives in the separate locals embedded by `P1State` / the `phase2`
arguments, so the query value threads through the run untouched. -/
theorem apiSearch_returns_caller_query (svc : Service) (q : Query)
    (r : QueryResultM) (h : apiSearchResult svc q = some r) : r.query = q := by
  unfold apiSearchResult at h
  cases happ : apiSearch svc q with
  | ok t rec reason sw tr =>
    rw [happ] at h
    simp only [Option.some.injEq] at h
    rw [← h]
  | fetchError e tr => rw [happ] at h; exact Option.noConfusion h
  | typeError tr => rw [happ] at h; exact Option.noConfusion h
  | outOfFuel => rw [happ] at h; exact Option.noConfusion h

/-! ### Congruence: the run is blind to query fields that only feed the
wire strings, provided the service reads only the numeric parameters -/

/-- A service that reads only the `limit` and `skip` entries of built
parameter maps (every scenario service here does). -/
def ViewBlind (svc : Service) : Prop :=
  ∀ i (p p' : Params), p.limit = p'.limit → p.skip = p'.skip →
    svc i (.std p) = svc i (.std p')

/-- The offset-mode loop sends only parameter maps whose `limit` and
`skip` entries come from its own overrides, so against a `ViewBlind`
service its behaviour is the same for any two queries. -/
theorem phase1_congr (svc : Service) (q q' : Query) (us : ℤ)
    (hblind : ViewBlind svc) (fuel : ℕ) :
    ∀ (idx : ℕ) (st : P1State),
      phase1 svc q us fuel idx st = phase1 svc q' us fuel idx st := by
  induction fuel with
  | zero => intro idx st; rfl
  | succ f ih =>
    intro idx st
    rw [phase1_succ, phase1_succ]
    by_cases h1 : st.remaining.IsPos
    · rw [if_pos h1, if_pos h1]
      by_cases h2 : st.skip < 25000
      · rw [if_pos h2, if_pos h2]
        dsimp only
        have hsvc : ∀ b : ℤ,
            svc idx (.std (buildParams q (some b) (some st.skip))) =
              svc idx (.std (buildParams q' (some b) (some st.skip))) :=
          fun b => hblind idx _ _ rfl rfl
        rw [hsvc]
        split
        · rfl
        · split
          · rfl
          · split
            · rfl
            · split
              · rfl
              · split
                · rfl
                · rw [ih]
      · rw [if_neg h2, if_neg h2]
    · rw [if_neg h1, if_neg h1]

/-- The cursor-mode loop touches the query only through its initial
parameter map; after the first request it replays service-supplied
continuations, so two view-equal initial maps give equal runs against a
`ViewBlind` service. -/
theorem phase2_congr (svc : Service) (total : ℤ) (fuel idx : ℕ)
    (p p' : Params) (mode : CallMode) (binfo : Option ℤ) (count : ℕ)
    (rem : Rem) (hblind : ViewBlind svc)
    (hl : p.limit = p'.limit) (hs : p.skip = p'.skip) :
    phase2 svc total fuel idx (.std p) mode binfo count rem =
      phase2 svc total fuel idx (.std p') mode binfo count rem := by
  cases fuel with
  | zero => rfl
  | succ f =>
    rw [phase2_succ, phase2_succ]
    rw [hblind idx p p' hl hs]

/-- Whole-run congruence: two queries with the same effective user skip,
the same `skip`-key fallback, the same effective user limit and the same
sort truthiness produce identical outcomes against a `ViewBlind`
service. -/
theorem apiSearch_congr (svc : Service) (q q' : Query)
    (hblind : ViewBlind svc)
    (hus : userSkip q = userSkip q')
    (hsf : skipField q.skip = skipField q'.skip)
    (hul : userLimit q = userLimit q')
    (hst : q.sortTruthy = q'.sortTruthy) :
    apiSearch svc q = apiSearch svc q' := by
  unfold apiSearch
  have hrem : remaining0 q = remaining0 q' := by rw [remaining0, hul, remaining0]
  have hinit : initState q = initState q' := by
    rw [initState, initState, hus, hrem]
  have hfuel : fuel1 q = fuel1 q' := by rw [fuel1, hus, fuel1]
  rw [hus, hinit, hfuel, phase1_congr svc q q' (userSkip q') hblind]
  generalize phase1 svc q' (userSkip q') (fuel1 q') 0 (initState q') = o
  cases o with
  | fuel => rfl
  | err e tr => rfl
  | out st ex tr1 =>
    simp only [afterPhase1]
    by_cases h1 : st.remaining.IsPos
    · rw [if_pos h1, if_pos h1]
      by_cases h2 : (25000 : ℤ) ≤ st.skip
      · rw [if_pos h2, if_pos h2]
        cases st.total with
        | none => rfl
        | some t =>
          dsimp only
          by_cases h3 : (st.count : ℤ) < t
          · rw [if_pos h3, if_pos h3, hst]
            by_cases h4 : q'.sortTruthy
            · rw [if_pos h4, if_pos h4]
              rw [phase2_congr svc t _ tr1.length
                  (buildParams q (some (st.remaining.minCap 1000)) none)
                  (buildParams q' (some (st.remaining.minCap 1000)) none)
                  .cursorInit _ st.count st.remaining hblind
                  rfl
                  (by rw [buildParams_skipP, buildParams_skipP]; exact hsf)]
            · rw [if_neg h4, if_neg h4]
          · rw [if_neg h3, if_neg h3]
      · rw [if_neg h2, if_neg h2]
    · rw [if_neg h1, if_neg h1]

/-! ### Claim C3: one offset-to-cursor switch at 25000, all 30000 records -/

theorem c3svc_blind : ViewBlind c3svc := by
  intro i p p' hl hs
  simp only [c3svc]
  rw [hl, hs]

/-- Canonical query of the C3 scenario: unlimited, skip absent, a truthy
sort. -/
def qc3Canon : Query := { sort := some ascStr, limit := some (-1) }

/-- The request trace of the C3 scenario run: 25 full offset pages, the
single switch to cursor mode, and 4 continuation pages. -/
def c3Trace : List Call :=
  List.replicate 25 ⟨.offset, some 1000, .ok 1000⟩ ++
    ⟨.cursorInit, some 1000, .ok 1000⟩ ::
      List.replicate 4 ⟨.cursorCont, none, .ok 1000⟩

/-- C3: with the unlimited sentinel, initial skip 0 or absent and any
truthy sort, against the service that reports `totalAvailable = 30000`,
serves every batch in full and links onward while records remain,
`api_search` performs 25 offset fetches, switches to cursor mode exactly
once — the logged switch point carrying `current_skip = 25000` and the
trace holding exactly one `cursorInit` call, after all `offset` calls —
and returns all 30000 records. -/
theorem apiSearch_hybrid_all30000 (q : Query)
    (hlim : q.limit = some (-1))
    (hskip : q.skip = none ∨ q.skip = some 0)
    (hsort : q.sortTruthy = true) :
    apiSearch c3svc q = .ok 30000 30000 .p2GotAll (some 25000) c3Trace := by
  have hcong : apiSearch c3svc q = apiSearch c3svc qc3Canon := by
    apply apiSearch_congr c3svc q qc3Canon c3svc_blind
    · rcases hskip with h | h <;> simp [userSkip, h, qc3Canon]
    · rcases hskip with h | h <;> simp [skipField, h, qc3Canon]
    · simp [userLimit, hlim, qc3Canon]
    · rw [hsort]; decide
  rw [hcong]
  decide

/-- The C3 scenario with a different sort string and explicit skip 0,
exercising the theorem at a concrete input. -/
def qc3w : Query := { sort := some descStr, limit := some (-1), skip := some 0 }

theorem apiSearch_hybrid_all30000_witness :
    apiSearch c3svc qc3w = .ok 30000 30000 .p2GotAll (some 25000) c3Trace :=
  apiSearch_hybrid_all30000 qc3w rfl (Or.inr rfl) (by decide)

/-! ### Claim C5: totalAvailable 1500 gives exactly two offset fetches -/

/-- Second offset iteration of the C5 scenario, for any query and any
remaining counter of `lim - 1000 ≥ 500`: batch bounded to the 500 unseen
records, served in full, stopping with `gotAll`. -/
theorem c5phase1_second (q : Query) (lim : ℤ) (hge : 1500 ≤ lim) :
    phase1 c5svc q 0 (24999 + 1) 1 ⟨1000, 1000, .fin (lim - 1000), some 1500⟩ =
      .out ⟨1500, 1000, .fin (lim - 1000), some 1500⟩ .gotAll
        [⟨.offset, some 500, .ok 500⟩] := by
  rw [phase1_succ]
  dsimp only
  rw [if_pos (show (Rem.fin (lim - 1000)).IsPos from by
    simp only [Rem.IsPos]; omega)]
  rw [if_pos (show (1000 : ℤ) < 25000 from by norm_num)]
  rw [show min ((Rem.fin (lim - 1000)).minCap 1000) (1500 - (1000 - 0)) = 500 from by
    simp only [Rem.minCap]
    have h5 : (500 : ℤ) ≤ min (lim - 1000) 1000 := le_min (by omega) (by norm_num)
    omega]
  rw [if_neg (show ¬ ((500 : ℤ) ≤ 0) from by norm_num)]
  rw [show c5svc 1 (.std (buildParams q (some 500) (some 1000))) =
    .ok ⟨500, 1500, .noNext⟩ from rfl]
  dsimp only
  rw [if_neg (show ¬ (500 = 0) from by norm_num)]
  rw [if_neg (show ¬ ((500 : ℕ) : ℤ) < 500 from by norm_num)]
  rw [if_pos (show (((1000 + 500 : ℕ) : ℤ) ≥ 1500) from by norm_num)]

/-- First offset iteration of the C5 scenario: full batch of 1000 at
offset 0, then the second iteration finishes the dataset. -/
theorem c5phase1_run (q : Query) (lim : ℤ) (hge : 1500 ≤ lim) :
    phase1 c5svc q 0 (25000 + 1) 0 ⟨0, 0, .fin lim, none⟩ =
      .out ⟨1500, 1000, .fin (lim - 1000), some 1500⟩ .gotAll
        [⟨.offset, some 1000, .ok 1000⟩, ⟨.offset, some 500, .ok 500⟩] := by
  rw [phase1_succ]
  dsimp only
  rw [if_pos (show (Rem.fin lim).IsPos from by simp only [Rem.IsPos]; omega)]
  rw [if_pos (show (0 : ℤ) < 25000 from by norm_num)]
  rw [show (Rem.fin lim).minCap 1000 = 1000 from by
    simp only [Rem.minCap]; omega]
  rw [if_neg (show ¬ ((1000 : ℤ) ≤ 0) from by norm_num)]
  rw [show c5svc 0 (.std (buildParams q (some 1000) (some 0))) =
    .ok ⟨1000, 1500, .noNext⟩ from rfl]
  dsimp only
  rw [if_neg (show ¬ (1000 = 0) from by norm_num)]
  rw [if_neg (show ¬ ((1000 : ℕ) : ℤ) < 1000 from by norm_num)]
  rw [if_neg (show ¬ (((0 + 1000 : ℕ) : ℤ) ≥ 1500) from by norm_num)]
  norm_num
  simp only [Rem.sub]
  rw [show (25000 : ℕ) = 24999 + 1 from rfl]
  rw [c5phase1_second q lim hge]

/-- The scenario service of C5 reads only the numeric parameters. -/
theorem c5svc_blind : ViewBlind c5svc := by
  intro i p p' hl hs
  simp only [c5svc]
  rw [hl, hs]

/-- Canonical unlimited C5 queries (with and without a sort field). -/
def qc5inf : Query := { limit := some (-1) }

def qc5infS : Query := { sort := some ascStr, limit := some (-1) }

/-- C5: any query requesting at least 1500 records (or unlimited) with
initial skip 0 or absent, against the full-serving service reporting
`totalAvailable = 1500`, makes exactly two offset fetches — batch 1000
returning 1000 records, then batch 500 returning 500 — and stops without
a third fetch. -/
theorem apiSearch_offset_two_fetches (q : Query) (lim : ℤ)
    (hlim : q.limit = some lim) (hor : lim = -1 ∨ 1500 ≤ lim)
    (hskip : q.skip = none ∨ q.skip = some 0) :
    apiSearch c5svc q = .ok 1500 1500 .p1GotAll none
      [⟨.offset, some 1000, .ok 1000⟩, ⟨.offset, some 500, .ok 500⟩] := by
  have husk : userSkip q = 0 := by rcases hskip with h | h <;> simp [userSkip, h]
  rcases hor with hm | hge
  · subst hm
    by_cases hs : q.sortTruthy
    · rw [apiSearch_congr c5svc q qc5infS c5svc_blind
        (by rw [husk]; decide)
        (by rcases hskip with h | h <;> rw [h] <;> decide)
        (by simp [userLimit, hlim]; decide)
        (by rw [hs]; decide)]
      decide
    · rw [apiSearch_congr c5svc q qc5inf c5svc_blind
        (by rw [husk]; decide)
        (by rcases hskip with h | h <;> rw [h] <;> decide)
        (by simp [userLimit, hlim]; decide)
        (by rw [Bool.not_eq_true] at hs; rw [hs]; decide)]
      decide
  · have hfuel : fuel1 q = 25000 + 1 := by rw [fuel1, husk]; rfl
    have hinit : initState q = ⟨0, 0, remaining0 q, none⟩ := by rw [initState, husk]
    unfold apiSearch
    rw [husk, hfuel, hinit]
    have hne0 : lim ≠ 0 := by omega
    have hnem : lim ≠ -1 := by omega
    have hrem : remaining0 q = .fin lim := by
      simp [remaining0, userLimit, hlim, hne0, hnem]
    rw [hrem, c5phase1_run q lim hge]
    simp only [afterPhase1]
    rw [if_pos (show (Rem.fin (lim - 1000)).IsPos from by
      simp only [Rem.IsPos]; omega)]
    rw [if_neg (show ¬ ((25000 : ℤ) ≤ 1000) from by norm_num)]
    rfl

/-- A C5 instance requesting 1700 records. -/
def qc5w : Query := { limit := some 1700 }

theorem apiSearch_offset_two_fetches_witness :
    apiSearch c5svc qc5w = .ok 1500 1500 .p1GotAll none
      [⟨.offset, some 1000, .ok 1000⟩, ⟨.offset, some 500, .ok 500⟩] :=
  apiSearch_offset_two_fetches qc5w 1700 rfl (Or.inr (by norm_num)) (Or.inl rfl)

/-- The C10 instance: default limit, stored skip 25000. -/
def qc10w : Query := { skip := some 25000 }

theorem apiSearch_skip25000_raises_witness :
    validSkipB qc10w.skip = true ∧ apiSearch c5svc qc10w = .typeError [] :=
  apiSearch_skip25000_raises c5svc qc10w rfl (by decide)

/-- The C4 instance: unlimited request, no sort, against the 30000-record
service. -/
def qc4w : Query := { limit := some (-1) }

theorem apiSearch_noSort_degrades_witness :
    apiSearch c3svc qc4w = .ok 30000 25000 .noSortDegradation (some 25000)
      (List.replicate 25 ⟨.offset, some 1000, .ok 1000⟩) :=
  apiSearch_noSort_degrades c3svc qc4w ⟨25000, 25000, .inf, some 30000⟩
    .condSkip (List.replicate 25 ⟨.offset, some 1000, .ok 1000⟩) 30000
    (by decide) (by decide) trivial (by decide) rfl (by decide)

theorem apiSearch_returns_caller_query_witness :
    (⟨qc5w, 1500, 1500⟩ : QueryResultM).query = qc5w :=
  apiSearch_returns_caller_query c5svc qc5w ⟨qc5w, 1500, 1500⟩ (by decide)

/-! ### Claim C6: fetch errors propagate immediately, discarding results -/

/-- The requests attempted during a run, as recorded in the outcome. -/
def Outcome.calls : Outcome → List Call
  | .ok _ _ _ _ tr => tr
  | .fetchError _ tr => tr
  | .typeError tr => tr
  | .outOfFuel => []

/-- Invariant for a loop started at call index `idx` when call `k` always
fails with `e`: either the loop never reaches call `k` (at most `k - idx`
requests), or it stops at call `k` exactly, raising `e`, having attempted
`k - idx + 1` requests and none after. -/
def P1Bounded (k idx : ℕ) (e : FetchError) : P1Out → Prop
  | .out _ _ tr => tr.length ≤ k - idx
  | .err e2 tr => tr.length ≤ k - idx ∨ (e2 = e ∧ tr.length = k - idx + 1)
  | .fuel => True

theorem phase1_failAt (svc : Service) (q : Query) (us : ℤ) (k : ℕ)
    (e : FetchError) (hk : ∀ r, svc k r = .error e) :
    ∀ (fuel idx : ℕ) (st : P1State), idx ≤ k →
      P1Bounded k idx e (phase1 svc q us fuel idx st) := by
  intro fuel
  induction fuel with
  | zero => intro idx st _; exact trivial
  | succ f ih =>
    intro idx st hidx
    rw [phase1_succ]
    by_cases h1 : st.remaining.IsPos
    · rw [if_pos h1]
      by_cases h2 : st.skip < 25000
      · rw [if_pos h2]
        dsimp only
        by_cases hb : (match st.total with
          | none => st.remaining.minCap 1000
          | some t => min (st.remaining.minCap 1000) (t - (st.skip - us))) ≤ 0
        · rw [if_pos hb]
          simp [P1Bounded]
        · rw [if_neg hb]
          by_cases hik : idx = k
          · subst hik
            rw [hk]
            dsimp only [P1Bounded]
            right
            exact ⟨rfl, by simp⟩
          · have hlt : idx < k := lt_of_le_of_ne hidx hik
            cases hsv : svc idx (.std (buildParams q
                (some (match st.total with
                  | none => st.remaining.minCap 1000
                  | some t => min (st.remaining.minCap 1000) (t - (st.skip - us))))
                (some st.skip))) with
            | error e2 =>
              dsimp only [P1Bounded]
              left
              simp only [List.length_cons, List.length_nil]
              omega
            | ok resp =>
              dsimp only
              by_cases hz : resp.nres = 0
              · rw [if_pos hz]
                simp only [P1Bounded, List.length_cons, List.length_nil]
                omega
              · rw [if_neg hz]
                by_cases hp : (resp.nres : ℤ) <
                    (match st.total with
                      | none => st.remaining.minCap 1000
                      | some t => min (st.remaining.minCap 1000) (t - (st.skip - us)))
                · rw [if_pos hp]
                  simp only [P1Bounded, List.length_cons, List.length_nil]
                  omega
                · rw [if_neg hp]
                  by_cases hg : ((st.count + resp.nres : ℕ) : ℤ) ≥ resp.total
                  · rw [if_pos hg]
                    simp only [P1Bounded, List.length_cons, List.length_nil]
                    omega
                  · rw [if_neg hg]
                    have hrec := ih (idx + 1)
                      { count := st.count + resp.nres
                        skip := st.skip + (resp.nres : ℤ)
                        remaining := st.remaining.sub (resp.nres : ℤ)
                        total := some resp.total } (by omega)
                    cases hr : phase1 svc q us f (idx + 1)
                        { count := st.count + resp.nres
                          skip := st.skip + (resp.nres : ℤ)
                          remaining := st.remaining.sub (resp.nres : ℤ)
                          total := some resp.total } with
                    | out s2 e2 tr =>
                      rw [hr] at hrec
                      simp only [P1Bounded, List.length_cons] at hrec ⊢
                      omega
                    | err e2 tr =>
                      rw [hr] at hrec
                      simp only [P1Bounded, List.length_cons] at hrec ⊢
                      rcases hrec with h | ⟨he, hl⟩
                      · left; omega
                      · right; exact ⟨he, by omega⟩
                    | fuel => exact trivial
      · rw [if_neg h2]
        simp [P1Bounded]
    · rw [if_neg h1]
      simp [P1Bounded]

def P2Bounded (k idx : ℕ) (e : FetchError) : P2Out → Prop
  | .out _ _ tr => tr.length ≤ k - idx
  | .err e2 tr => tr.length ≤ k - idx ∨ (e2 = e ∧ tr.length = k - idx + 1)
  | .fuel => True

theorem phase2_failAt (svc : Service) (total : ℤ) (k : ℕ) (e : FetchError)
    (hk : ∀ r, svc k r = .error e) :
    ∀ (fuel idx : ℕ) (cur : Req) (mode : CallMode) (binfo : Option ℤ)
      (count : ℕ) (rem : Rem), idx ≤ k →
      P2Bounded k idx e (phase2 svc total fuel idx cur mode binfo count rem) := by
  intro fuel
  induction fuel with
  | zero => intro idx cur mode binfo count rem _; exact trivial
  | succ f ih =>
    intro idx cur mode binfo count rem hidx
    rw [phase2_succ]
    by_cases h1 : rem.IsPos
    · rw [if_pos h1]
      by_cases hik : idx = k
      · subst hik
        rw [hk]
        dsimp only [P2Bounded]
        right
        exact ⟨rfl, by simp⟩
      · have hlt : idx < k := lt_of_le_of_ne hidx hik
        cases hsv : svc idx cur with
        | error e2 =>
          dsimp only [P2Bounded]
          left
          simp only [List.length_cons, List.length_nil]
          omega
        | ok resp =>
          dsimp only
          by_cases hz : resp.nres = 0
          · rw [if_pos hz]
            simp only [P2Bounded, List.length_cons, List.length_nil]
            omega
          · rw [if_neg hz]
            by_cases hg : ((count + resp.nres : ℕ) : ℤ) ≥ total
            · rw [if_pos hg]
              simp only [P2Bounded, List.length_cons, List.length_nil]
              omega
            · rw [if_neg hg]
              cases hlink : resp.link with
              | noNext =>
                simp only [P2Bounded, List.length_cons, List.length_nil]
                omega
              | unparsable =>
                simp only [P2Bounded, List.length_cons, List.length_nil]
                omega
              | next tok =>
                dsimp only
                have hrec := ih (idx + 1) (.cont tok) .cursorCont none
                  (count + resp.nres) (rem.sub (resp.nres : ℤ)) (by omega)
                cases hr : phase2 svc total f (idx + 1) (.cont tok) .cursorCont
                    none (count + resp.nres) (rem.sub (resp.nres : ℤ)) with
                | out c2 e2 tr =>
                  rw [hr] at hrec
                  dsimp only [P2Bounded] at hrec ⊢
                  simp only [List.length_cons] at hrec ⊢
                  omega
                | err e2 tr =>
                  rw [hr] at hrec
                  dsimp only [P2Bounded] at hrec ⊢
                  simp only [List.length_cons] at hrec ⊢
                  rcases hrec with h | ⟨he, hl⟩
                  · left; omega
                  · right; exact ⟨he, by omega⟩
                | fuel => exact trivial
    · rw [if_neg h1]
      simp [P2Bounded]

/-- C6: if the `k`-th attempted request fails (transport or HTTP error),
the run either never reaches that request, or ends at it exactly:
`api_search` re-raises that same error immediately, with precisely the
`k` earlier requests plus the failing one attempted — no retry, no
further request — and no `QueryResult` is produced: the `fetchError`
outcome carries no records, so everything accumulated before the failure
is discarded. -/
theorem apiSearch_failfast (svc : Service) (q : Query) (k : ℕ)
    (e : FetchError) (hk : ∀ r, svc k r = .error e) :
    (apiSearch svc q).calls.length ≤ k ∨
      ∃ tr, apiSearch svc q = .fetchError e tr ∧ tr.length = k + 1 := by
  unfold apiSearch
  have h1 := phase1_failAt svc q (userSkip q) k e hk (fuel1 q) 0 (initState q)
    (Nat.zero_le k)
  cases hph : phase1 svc q (userSkip q) (fuel1 q) 0 (initState q) with
  | fuel => left; simp [afterPhase1, Outcome.calls]
  | err e2 tr =>
    rw [hph] at h1
    simp only [P1Bounded, Nat.sub_zero] at h1
    rcases h1 with h | ⟨he, hl⟩
    · left
      simp [afterPhase1, Outcome.calls, h]
    · subst he
      right
      exact ⟨tr, by simp [afterPhase1], hl⟩
  | out st ex tr1 =>
    rw [hph] at h1
    simp only [P1Bounded, Nat.sub_zero] at h1
    simp only [afterPhase1]
    by_cases hp : st.remaining.IsPos
    · rw [if_pos hp]
      by_cases hs : (25000 : ℤ) ≤ st.skip
      · rw [if_pos hs]
        cases st.total with
        | none => left; simp [Outcome.calls, h1]
        | some t =>
          dsimp only
          by_cases hc : (st.count : ℤ) < t
          · rw [if_pos hc]
            by_cases hst : q.sortTruthy
            · rw [if_pos hst]
              have h2 := phase2_failAt svc t k e hk
                ((t - (st.count : ℤ)).toNat + 1) tr1.length
                (.std (buildParams q (some (st.remaining.minCap 1000)) none))
                .cursorInit (some (st.remaining.minCap 1000)) st.count
                st.remaining h1
              cases hp2 : phase2 svc t ((t - (st.count : ℤ)).toNat + 1)
                  tr1.length
                  (.std (buildParams q (some (st.remaining.minCap 1000)) none))
                  .cursorInit (some (st.remaining.minCap 1000)) st.count
                  st.remaining with
              | fuel => left; simp [Outcome.calls]
              | err e2 tr2 =>
                rw [hp2] at h2
                simp only [P2Bounded] at h2
                rcases h2 with h | ⟨he, hl⟩
                · left
                  simp only [Outcome.calls, List.length_append]
                  omega
                · subst he
                  right
                  exact ⟨tr1 ++ tr2, rfl, by
                    simp only [List.length_append]
                    omega⟩
              | out c2 ex2 tr2 =>
                rw [hp2] at h2
                simp only [P2Bounded] at h2
                left
                simp only [Outcome.calls, List.length_append]
                omega
            · rw [if_neg hst]
              left
              simp [Outcome.calls, h1]
          · rw [if_neg hc]
            left
            simp [Outcome.calls, h1]
      · rw [if_neg hs]
        left
        simp [Outcome.calls, h1]
    · rw [if_neg hp]
      left
      simp [Outcome.calls, h1]

/-- A service failing on its second request, behind the C5 scenario. -/
theorem apiSearch_failfast_witness :
    (apiSearch c6svc qc5w).calls.length ≤ 1 ∨
      ∃ tr, apiSearch c6svc qc5w = .fetchError .network tr ∧
        tr.length = 1 + 1 :=
  apiSearch_failfast c6svc qc5w 1 .network (fun _ => rfl)

/-! ### Claim C8: unlimited runs stop by dataset exhaustion -/

/-- The transport never fails (C8's "every fetch returns a finite list of
records and a finite integer total"). -/
def NeverFails (svc : Service) : Prop := ∀ i r, ∃ resp, svc i r = .ok resp

theorem c3svc_neverFails : NeverFails c3svc := fun _ _ => ⟨_, rfl⟩

theorem Rem.minCap_pos (r : Rem) (h : r.IsPos) : 0 < r.minCap 1000 := by
  cases r with
  | inf => norm_num [Rem.minCap]
  | fin n =>
    simp only [Rem.IsPos] at h
    simp only [Rem.minCap]
    exact lt_min h (by norm_num)

/-- With a never-failing transport and fuel above the offset headroom, the
offset loop returns normally; an infinite `remaining` stays infinite and
never causes the exit; a known `total_available` stays known, and becomes
known whenever the loop can run at least one iteration. -/
theorem phase1_ok (svc : Service) (q : Query) (us : ℤ) (hok : NeverFails svc) :
    ∀ (fuel idx : ℕ) (st : P1State), (25000 - st.skip).toNat < fuel →
      ∃ st2 ex tr, phase1 svc q us fuel idx st = .out st2 ex tr ∧
        (st.remaining = .inf → st2.remaining = .inf ∧ ex ≠ .condRemaining) ∧
        (st.total.isSome = true → st2.total.isSome = true) ∧
        (st.total = none → st.remaining.IsPos → st.skip < 25000 →
          st2.total.isSome = true) := by
  intro fuel
  induction fuel with
  | zero => intro idx st h; omega
  | succ f ih =>
    intro idx st hf
    rw [phase1_succ]
    by_cases h1 : st.remaining.IsPos
    · rw [if_pos h1]
      by_cases h2 : st.skip < 25000
      · rw [if_pos h2]
        dsimp only
        by_cases hb : (match st.total with
          | none => st.remaining.minCap 1000
          | some t => min (st.remaining.minCap 1000) (t - (st.skip - us))) ≤ 0
        · rw [if_pos hb]
          refine ⟨st, .datasetExhausted, [], rfl, ?_, fun h => h, ?_⟩
          · intro h; exact ⟨h, by decide⟩
          · intro hn _ _
            exfalso
            rw [hn] at hb
            dsimp only at hb
            have := Rem.minCap_pos st.remaining h1
            omega
        · rw [if_neg hb]
          obtain ⟨resp, hresp⟩ := hok idx (.std (buildParams q
            (some (match st.total with
              | none => st.remaining.minCap 1000
              | some t => min (st.remaining.minCap 1000) (t - (st.skip - us))))
            (some st.skip)))
          rw [hresp]
          dsimp only
          by_cases hz : resp.nres = 0
          · rw [if_pos hz]
            refine ⟨_, .emptyBatch, _, rfl, ?_, fun _ => rfl, fun _ _ _ => rfl⟩
            intro h; exact ⟨h, by decide⟩
          · rw [if_neg hz]
            by_cases hp : (resp.nres : ℤ) <
                (match st.total with
                  | none => st.remaining.minCap 1000
                  | some t => min (st.remaining.minCap 1000) (t - (st.skip - us)))
            · rw [if_pos hp]
              refine ⟨_, .partialBatch, _, rfl, ?_, fun _ => rfl, fun _ _ _ => rfl⟩
              intro h; exact ⟨h, by decide⟩
            · rw [if_neg hp]
              by_cases hg : ((st.count + resp.nres : ℕ) : ℤ) ≥ resp.total
              · rw [if_pos hg]
                refine ⟨_, .gotAll, _, rfl, ?_, fun _ => rfl, fun _ _ _ => rfl⟩
                intro h; exact ⟨h, by decide⟩
              · rw [if_neg hg]
                have hrec := ih (idx + 1)
                  { count := st.count + resp.nres
                    skip := st.skip + (resp.nres : ℤ)
                    remaining := st.remaining.sub (resp.nres : ℤ)
                    total := some resp.total }
                  (by
                    dsimp only
                    omega)
                obtain ⟨st2, ex, tr, hreq, hi, ht, _⟩ := hrec
                rw [hreq]
                refine ⟨st2, ex, _ :: tr, rfl, ?_, fun _ => ht rfl,
                  fun _ _ _ => ht rfl⟩
                intro h
                exact hi (by rw [h]; rfl)
      · rw [if_neg h2]
        refine ⟨st, .condSkip, [], rfl, ?_, fun h => h, fun _ _ hsk => absurd hsk h2⟩
        intro h; exact ⟨h, by decide⟩
    · rw [if_neg h1]
      refine ⟨st, .condRemaining, [], rfl, ?_, fun h => h, fun _ hp _ => absurd hp h1⟩
      intro h
      exact absurd (show st.remaining.IsPos from by rw [h]; trivial) h1

/-- With a never-failing transport and fuel above the outstanding record
count, the cursor loop returns normally, and an infinite `remaining`
never causes the exit. -/
theorem phase2_ok (svc : Service) (total : ℤ) (hok : NeverFails svc) :
    ∀ (fuel idx : ℕ) (cur : Req) (mode : CallMode) (binfo : Option ℤ)
      (count : ℕ) (rem : Rem), (total - (count : ℤ)).toNat < fuel →
      ∃ c2 ex tr, phase2 svc total fuel idx cur mode binfo count rem =
          .out c2 ex tr ∧ (rem = .inf → ex ≠ .condRemaining) := by
  intro fuel
  induction fuel with
  | zero => intro idx cur mode binfo count rem h; omega
  | succ f ih =>
    intro idx cur mode binfo count rem hf
    rw [phase2_succ]
    by_cases h1 : rem.IsPos
    · rw [if_pos h1]
      obtain ⟨resp, hresp⟩ := hok idx cur
      rw [hresp]
      dsimp only
      by_cases hz : resp.nres = 0
      · rw [if_pos hz]
        exact ⟨count, .emptyBatch, _, rfl, fun _ => by decide⟩
      · rw [if_neg hz]
        by_cases hg : ((count + resp.nres : ℕ) : ℤ) ≥ total
        · rw [if_pos hg]
          exact ⟨_, .gotAll, _, rfl, fun _ => by decide⟩
        · rw [if_neg hg]
          cases hl : resp.link with
          | noNext => exact ⟨_, .noLink, _, rfl, fun _ => by decide⟩
          | unparsable => exact ⟨_, .badLink, _, rfl, fun _ => by decide⟩
          | next tok =>
            dsimp only
            have hrec := ih (idx + 1) (.cont tok) .cursorCont none
              (count + resp.nres) (rem.sub (resp.nres : ℤ)) (by push_cast; omega)
            obtain ⟨c2, ex, tr, hr, hi⟩ := hrec
            rw [hr]
            refine ⟨c2, ex, _ :: tr, rfl, ?_⟩
            intro h
            exact hi (by rw [h]; rfl)
    · rw [if_neg h1]
      refine ⟨count, .condRemaining, [], rfl, ?_⟩
      intro h
      exact absurd (show rem.IsPos from by rw [h]; trivial) h1

/-- Does the run end normally with a stop cause that is dataset
exhaustion (empty page, partial batch, count reaching `totalAvailable`,
the exhausted dataset bound, the offset ceiling, missing sort, or a
missing/unparsable continuation link) — i.e. anything but the
remaining-count reaching zero?  A raised error (and the artificial
`outOfFuel`) is not a dataset-exhaustion stop. -/
def Outcome.exhaustionStop : Outcome → Bool
  | .ok _ _ r _ _ => !(r == .p1RemainingDone) && !(r == .p2RemainingDone)
  | _ => false

/-- The C8 counterexample input: a valid unlimited query with a sort and
stored skip 25000, against the never-failing 30000-record service. -/
def qc8cex : Query := { sort := some ascStr, limit := some (-1), skip := some 25000 }

/-- C8 counterexample: this unlimited run against a never-failing service
terminates by raising the unhandled `TypeError` (with no fetch at all),
not by any dataset-exhaustion condition — refuting the claim as stated
for queries whose initial skip is exactly 25000. -/
theorem apiSearch_unlimited_typeError_cex :
    validQ qc8cex = true ∧ apiSearch c3svc qc8cex = .typeError [] ∧
      (apiSearch c3svc qc8cex).exhaustionStop = false := by
  decide

/-- C8 (amended): for every query with the unlimited sentinel whose
effective initial skip is strictly below 25000, and every never-failing
transport, `api_search` terminates normally (the embedding's allocated
fuel is never exhausted, no error and no `TypeError` is raised) and its
stop cause is a dataset-exhaustion condition — never the remaining-count
reaching zero, which in unlimited mode stays infinite. -/
theorem apiSearch_unlimited_exhaustion (svc : Service) (q : Query)
    (hok : NeverFails svc) (hlim : q.limit = some (-1))
    (hskip : userSkip q < 25000) :
    (apiSearch svc q).exhaustionStop = true := by
  have hrem : remaining0 q = .inf := by simp [remaining0, userLimit, hlim]
  obtain ⟨st2, ex, tr, hph, hinf, _, htotn⟩ :=
    phase1_ok svc q (userSkip q) hok (fuel1 q) 0 (initState q)
      (by simp only [initState, fuel1]; omega)
  have hinf2 := hinf (by rw [initState, hrem])
  have hpos2 : st2.remaining.IsPos := by rw [hinf2.1]; trivial
  unfold apiSearch
  rw [hph]
  simp only [afterPhase1]
  rw [if_pos hpos2]
  by_cases hs : (25000 : ℤ) ≤ st2.skip
  · rw [if_pos hs]
    have htots : st2.total.isSome = true := by
      apply htotn
      · rfl
      · rw [initState, hrem]; trivial
      · simpa [initState] using hskip
    obtain ⟨t, ht⟩ := Option.isSome_iff_exists.mp htots
    rw [ht]
    dsimp only
    by_cases hc : (st2.count : ℤ) < t
    · rw [if_pos hc]
      by_cases hst : q.sortTruthy
      · rw [if_pos hst]
        obtain ⟨c2, ex2, tr2, hp2, hex2⟩ :=
          phase2_ok svc t hok ((t - (st2.count : ℤ)).toNat + 1) tr.length
            (.std (buildParams q (some (st2.remaining.minCap 1000)) none))
            .cursorInit (some (st2.remaining.minCap 1000)) st2.count
            st2.remaining (Nat.lt_succ_self _)
        rw [hp2]
        have hne2 := hex2 hinf2.1
        simp only [Outcome.exhaustionStop]
        cases ex2 <;> first | rfl | exact absurd rfl hne2
      · rw [if_neg hst]
        rfl
    · rw [if_neg hc]
      simp only [Outcome.exhaustionStop]
      cases ex <;> first | rfl | exact absurd rfl hinf2.2
  · rw [if_neg hs]
    simp only [Outcome.exhaustionStop]
    cases ex <;> first | rfl | exact absurd rfl hinf2.2

theorem apiSearch_unlimited_exhaustion_witness :
    (apiSearch c3svc qc3Canon).exhaustionStop = true :=
  apiSearch_unlimited_exhaustion c3svc qc3Canon c3svc_neverFails rfl
    (by decide)
